import Mathlib

/-!
Verification development for the R200 UHF RFID reader driver
(`src/frame.rs`, `src/packet.rs`, `src/rfid.rs`, `src/connector.rs`).

The Rust source is shallowly embedded: bytes are `Nat` (wrapping made
explicit with `% 256` / `% 65536` where the source uses `u8`/`u16`),
byte buffers are `List Nat`, fallible or panicking code returns an
explicit outcome value, and the blocking serial transport is replaced by
a script of read events (`ReadEvent`) consumed in order.
-/

set_option maxRecDepth 100000

/-! ## Constants (frame.rs) -/

def R200_FRAME_HEADER : Nat := 0xAA

def R200_FRAME_END : Nat := 0xDD

/-! ## Command and Frame (frame.rs)

`Command::SetTrasmissionPower` carries an `f64` power in the source which
is immediately scaled by 100 and truncated to `u16` inside `to_bytes`;
the embedding carries that already-scaled 16-bit value (reduced mod
2^16 where the source truncates), since every claim about frames
concerns the byte layout, not the float conversion. -/

inductive Command where
  | GetWorkingChannel
  | GetWorkingArea
  | AcquireTransmitPower
  | SetTrasmissionPower (power : Nat)
  | HardwareVersion
  | SoftwareVersion
  | Manufacturer
  | SinglePollingInstruction
  | MultiplePollingInstruction (max : Nat)
  | StopMultiplePollingInstruction
deriving DecidableEq

/-- `Command::to_bytes` from frame.rs: `(command bytes, parameter bytes)`. -/
def Command.to_bytes : Command → List Nat × List Nat
  | .HardwareVersion => ([0x03], [0x00])
  | .SoftwareVersion => ([0x03], [0x01])
  | .Manufacturer => ([0x03], [0x02])
  | .GetWorkingChannel => ([0xAA], [])
  | .GetWorkingArea => ([0x08], [])
  | .AcquireTransmitPower => ([0xB7], [])
  | .SetTrasmissionPower p => ([0xB6], [p % 65536 / 256, p % 256])
  | .SinglePollingInstruction => ([0x22], [])
  | .MultiplePollingInstruction m => ([0x27], [m % 65536 / 256, m % 256])
  | .StopMultiplePollingInstruction => ([0x28], [])

structure Frame where
  payload : List Nat
deriving DecidableEq

/-- `Frame::new` from frame.rs: command bytes, big-endian parameter
length (`len as u16`, split via `>> 8` and `& 0xFF`), parameter bytes. -/
def Frame.new (c : Command) : Frame :=
  { payload := c.to_bytes.1
      ++ [c.to_bytes.2.length % 65536 / 256, c.to_bytes.2.length % 65536 % 256]
      ++ c.to_bytes.2 }

/-- `Frame::checksum`: low byte of the `u16` sum of the given bytes. -/
def Frame.checksum (bytes : List Nat) : Nat := bytes.sum % 256

/-- `Frame::to_bytes`: header, direction `0x00`, payload, checksum over
the payload (the source computes it over `v[2..]`, which at that point
is exactly the payload), end byte. -/
def Frame.to_bytes (fr : Frame) : List Nat :=
  [R200_FRAME_HEADER, 0x00] ++ fr.payload ++ [Frame.checksum fr.payload, R200_FRAME_END]

/-! ## Packet (packet.rs) -/

structure Packet where
  raw_data : List Nat
deriving DecidableEq

/-- `Packet::data_len`: big-endian `u16` from bytes 3 and 4. The source
indexes `raw_data[3]`/`raw_data[4]` directly (panicking on shorter
chunks); every `Packet` the connector constructs has length > 4, and
`getD` only defaults outside that domain. -/
def Packet.data_len (p : Packet) : Nat :=
  p.raw_data.getD 3 0 * 256 + p.raw_data.getD 4 0

/-- `Packet::get_data`: the slice `raw_data[5 .. 5 + data_len]`.
`none` models the out-of-range panic of the Rust slice when
`5 + data_len > raw_data.len()`. -/
def Packet.get_data? (p : Packet) : Option (List Nat) :=
  if 5 + p.data_len ≤ p.raw_data.length then
    some ((p.raw_data.drop 5).take p.data_len)
  else none

/-- `Packet::is_valid`: total length must be 5 + declared length + 2. -/
def Packet.is_valid (p : Packet) : Bool :=
  5 + 2 + p.data_len == p.raw_data.length

/-! ## Connector error taxonomy and transport model (connector.rs)

`ConnectorError::Io` and `::SerialRead` carry detail strings in the
source; the strings play no role in any claim and are dropped. -/

inductive ConnectorError where
  | ioErr
  | timeout
  | invalidWorkingArea
  | noPacketReceived
  | serialRead
deriving DecidableEq

inductive WorkingArea where
  | china900Mhz
  | china800Mhz
  | us
  | eu
  | korea
deriving DecidableEq

/-- One `self.port.read(&mut read_buf)` outcome: `ok bytes` is
`Ok(n)` delivering those bytes (`n = bytes.length`, so `ok []` is the
`Ok(0)` idle/closed signal), `timedOut` is `Err(TimedOut)`, `ioError`
is any other `Err`. -/
inductive ReadEvent where
  | ok (bytes : List Nat)
  | timedOut
  | ioError
deriving DecidableEq

/-- Outcome of running embedded connector code: `ok`, a typed
`ConnectorError`, a Rust panic (out-of-range index/slice or `unwrap`
on `None`), or `hung` when the scripted events are exhausted while the
source would still be blocking on `read`. -/
inductive RRes (α : Type) where
  | ok (a : α)
  | error (e : ConnectorError)
  | panicked
  | hung
deriving DecidableEq

/-! ## read_from_serial (connector.rs, lines 101-180) -/

/-- First index of byte `b`, as `iter().position(|&x| x == b)` (only
used under a `contains` guard, where `findIdx` is that position). -/
def firstIdx (l : List Nat) (b : Nat) : Nat := l.findIdx (· == b)

/-- Lines 156-160: drain through the first END byte, then trim the
rolling buffer to its last 4096 bytes when it exceeds 8192. -/
def drainAndTrim (rolling : List Nat) (lastFrameIndex : Nat) : List Nat :=
  let r := rolling.drop (lastFrameIndex + 1)
  if 8192 < r.length then r.drop (r.length - 4096) else r

/-- Result of one iteration of the `loop` in `read_from_serial`:
either continue looping with a new rolling buffer and output list, or
finish with a final result. -/
inductive StepRes where
  | cont (rolling : List Nat) (output : List Packet)
  | done (res : RRes (Option (List Packet)))
deriving DecidableEq

/-- The body of the `Ok(n) if n > 0` arm of the `loop` of
`read_from_serial` (connector.rs lines 115-161), acting on the grown
rolling buffer: clear it when it holds no HEADER; keep reading when it
holds no END; slice from the first HEADER to the first END (panicking
when that Rust range is invalid, i.e. start > end); accept the chunk
when it is longer than 4 bytes, starts with HEADER and ends with END
and its declared-length payload is non-empty; return early once
`num_expected_responses` (default 100000) packets are collected;
otherwise drain-and-trim and continue. -/
def stepOk (expected : Option Nat) (rolling : List Nat) (output : List Packet) :
    StepRes :=
  if !(rolling.contains R200_FRAME_HEADER) then .cont [] output
  else if !(rolling.contains R200_FRAME_END) then .cont rolling output
  else
    let first_frame_index := firstIdx rolling R200_FRAME_HEADER
    let last_frame_index := firstIdx rolling R200_FRAME_END
    if last_frame_index + 1 < first_frame_index then .done .panicked
    else
      let chunk := (rolling.drop first_frame_index).take
        (last_frame_index + 1 - first_frame_index)
      if 4 < chunk.length ∧ chunk.head? = some R200_FRAME_HEADER
          ∧ chunk.getLast? = some R200_FRAME_END then
        match (Packet.mk chunk).get_data? with
        | none => .done .panicked
        | some d =>
          if d.isEmpty then
            .cont (drainAndTrim rolling last_frame_index) output
          else
            let output := output ++ [Packet.mk chunk]
            if expected.getD 100000 ≤ output.length then
              .done (.ok (some output))
            else
              .cont (drainAndTrim rolling last_frame_index) output
      else
        .cont (drainAndTrim rolling last_frame_index) output

/-- One iteration of the `loop` of `read_from_serial`, for one
transport read outcome (connector.rs lines 110-177): on `Ok(n)` with
`n > 0`, extend the rolling buffer with the read bytes and run
`stepOk`; on `Ok(0)` return `Ok(None)`; on a timeout return `Timeout`
when nothing was collected and the collected packets otherwise; on any
other read error return `SerialRead`. -/
def step (expected : Option Nat) (rolling : List Nat) (output : List Packet) :
    ReadEvent → StepRes
  | .ok bytes =>
    if bytes.isEmpty then .done (.ok none)
    else stepOk expected (rolling ++ bytes) output
  | .timedOut =>
    if output.isEmpty then .done (.error .timeout) else .done (.ok (some output))
  | .ioError => .done (.error .serialRead)

/-- The `loop` of `read_from_serial`, consuming scripted read events.
Also returns the events left unconsumed, so that successive operations
of one session can be sequenced over one script. -/
def readLoop (expected : Option Nat) :
    List ReadEvent → List Nat → List Packet →
      RRes (Option (List Packet)) × List ReadEvent
  | [], _, _ => (.hung, [])
  | e :: rest, rolling, output =>
    match step expected rolling output e with
    | .cont r o => readLoop expected rest r o
    | .done res => (res, rest)

/-- `Connector::read_from_serial`, started with an empty rolling buffer
and empty output. -/
def read_from_serial (expected : Option Nat) (evs : List ReadEvent) :
    RRes (Option (List Packet)) × List ReadEvent :=
  readLoop expected evs [] []

/-- `Connector::single_read_from_serial`: one expected response,
`unwrap_or(vec![]).pop()`. -/
def single_read_from_serial (evs : List ReadEvent) :
    RRes (Option Packet) × List ReadEvent :=
  match read_from_serial (some 1) evs with
  | (.ok ps, rest) => (.ok ((ps.getD []).getLast?), rest)
  | (.error e, rest) => (.error e, rest)
  | (.panicked, rest) => (.panicked, rest)
  | (.hung, rest) => (.hung, rest)

/-- Iterate `step` over read events as long as every iteration
continues the loop; `none` when some iteration finishes instead. This
exposes the rolling buffer and collected output of `readLoop` at the
observation point after each completed iteration. -/
def runSteps (expected : Option Nat) :
    List ReadEvent → List Nat → List Packet → Option (List Nat × List Packet)
  | [], rolling, output => some (rolling, output)
  | e :: rest, rolling, output =>
    match step expected rolling output e with
    | .cont r o => runSteps expected rest r o
    | .done _ => none

/-! ## ProtocolSession operations (connector.rs)

Each operation consumes its read events and returns its result plus the
unconsumed events. `send_packet` writes to the transport, which has no
effect on the scripted read events; write failures are outside every
claim and are not modelled. -/

/-- `Connector::get_working_area` (lines 189-203): payload byte 0 maps
codes 0-4 to areas, other codes fail as `InvalidWorkingArea`; an absent
packet fails as `NoPacketReceived`. -/
def get_working_area (evs : List ReadEvent) : RRes WorkingArea × List ReadEvent :=
  match single_read_from_serial evs with
  | (.ok (some p), rest) =>
    match p.get_data? with
    | none => (.panicked, rest)
    | some [] => (.panicked, rest)
    | some (b :: _) =>
      match b with
      | 0 => (.ok .china900Mhz, rest)
      | 1 => (.ok .china800Mhz, rest)
      | 2 => (.ok .us, rest)
      | 3 => (.ok .eu, rest)
      | 4 => (.ok .korea, rest)
      | _ => (.error .invalidWorkingArea, rest)
  | (.ok none, rest) => (.error .noPacketReceived, rest)
  | (.error e, rest) => (.error e, rest)
  | (.panicked, rest) => (.panicked, rest)
  | (.hung, rest) => (.hung, rest)

/-- `Connector::get_working_channel` (lines 214-237). The source
computes the frequency in `f64`; the embedding uses `ℚ` with the same
step/base constants (the float rounding of these constants is not part
of any claim). -/
def get_working_channel (evs : List ReadEvent) : RRes ℚ × List ReadEvent :=
  match single_read_from_serial evs with
  | (.ok (some p), rest) =>
    match get_working_area rest with
    | (.ok area, rest2) =>
      match p.get_data? with
      | none => (.panicked, rest2)
      | some [] => (.panicked, rest2)
      | some (b :: _) =>
        match area with
        | .china900Mhz => (.ok ((b : ℚ) * (25 / 100) + 920125 / 1000), rest2)
        | .china800Mhz => (.ok ((b : ℚ) * (25 / 100) + 840125 / 1000), rest2)
        | .us => (.ok ((b : ℚ) * (50 / 100) + 90225 / 100), rest2)
        | .eu => (.ok ((b : ℚ) * (2 / 10) + 8651 / 10), rest2)
        | .korea => (.ok ((b : ℚ) * (2 / 10) + 9171 / 10), rest2)
    | (.error e, rest2) => (.error e, rest2)
    | (.panicked, rest2) => (.panicked, rest2)
    | (.hung, rest2) => (.hung, rest2)
  | (.ok none, rest) => (.error .noPacketReceived, rest)
  | (.error e, rest) => (.error e, rest)
  | (.panicked, rest) => (.panicked, rest)
  | (.hung, rest) => (.hung, rest)

/-- `Connector::get_transmit_power` (lines 248-256):
`(data[0] * 256 + data[1]) / 100.0`, in `ℚ`. -/
def get_transmit_power (evs : List ReadEvent) : RRes ℚ × List ReadEvent :=
  match single_read_from_serial evs with
  | (.ok (some p), rest) =>
    match p.get_data? with
    | none => (.panicked, rest)
    | some [] => (.panicked, rest)
    | some [_] => (.panicked, rest)
    | some (d0 :: d1 :: _) =>
      (.ok (((d0 : ℚ) * 16 * 16 + (d1 : ℚ)) / 100), rest)
  | (.ok none, rest) => (.error .noPacketReceived, rest)
  | (.error e, rest) => (.error e, rest)
  | (.panicked, rest) => (.panicked, rest)
  | (.hung, rest) => (.hung, rest)

/-- `Connector::set_trasmission_power` (lines 267-278): acknowledgement
byte `0x00` succeeds; any other payload, or an absent packet, falls
through to `NoPacketReceived`. The `f64` power argument only shapes the
transmitted frame and is carried as its scaled `u16` value. -/
def set_trasmission_power (power : Nat) (evs : List ReadEvent) :
    RRes Unit × List ReadEvent :=
  let _ := power
  match single_read_from_serial evs with
  | (.ok (some p), rest) =>
    match p.get_data? with
    | none => (.panicked, rest)
    | some [] => (.panicked, rest)
    | some (b :: _) =>
      if b = 0x00 then (.ok (), rest) else (.error .noPacketReceived, rest)
  | (.ok none, rest) => (.error .noPacketReceived, rest)
  | (.error e, rest) => (.error e, rest)
  | (.panicked, rest) => (.panicked, rest)
  | (.hung, rest) => (.hung, rest)

/-- `Connector::get_module_info` (lines 63-79): three sequential
single reads (hardware, software, manufacturer), then
`format!` with `r?.unwrap().to_string()` on each in order: a `?` on an
`Err` propagates the error, `.unwrap()` on `None` panics. The
`Display` rendering of each packet reads its payload via `get_data`;
the embedding returns the three payload byte lists (their UTF-8
rendering is not part of any claim). -/
def get_module_info (evs : List ReadEvent) :
    RRes (List Nat × List Nat × List Nat) × List ReadEvent :=
  let (r1, e1) := single_read_from_serial evs
  let (r2, e2) := single_read_from_serial e1
  let (r3, e3) := single_read_from_serial e2
  let _ := e2
  match r1 with
  | .error e => (.error e, e3)
  | .panicked => (.panicked, e3)
  | .hung => (.hung, e3)
  | .ok none => (.panicked, e3)
  | .ok (some p1) =>
    match p1.get_data? with
    | none => (.panicked, e3)
    | some t1 =>
      match r2 with
      | .error e => (.error e, e3)
      | .panicked => (.panicked, e3)
      | .hung => (.hung, e3)
      | .ok none => (.panicked, e3)
      | .ok (some p2) =>
        match p2.get_data? with
        | none => (.panicked, e3)
        | some t2 =>
          match r3 with
          | .error e => (.error e, e3)
          | .panicked => (.panicked, e3)
          | .hung => (.hung, e3)
          | .ok none => (.panicked, e3)
          | .ok (some p3) =>
            match p3.get_data? with
            | none => (.panicked, e3)
            | some t3 => (.ok (t1, t2, t3), e3)

/-! ## Tag records

connector.rs lines 302-308 build a tag record inline with numeric
`pc`/`crc` and a byte-list `epc` taken as `data[3..12]`; rfid.rs's
`Rfid::from_raw` instead stores uppercase-hex strings with
`epc = raw[3..15]`. The two are embedded separately because they
disagree (see the C3 theorem). -/

/-- The record shape built inline by
`Connector::single_polling_instruction`:
`Rfid { rssi, pc, epc, crc }` with `pc`, `crc` numeric and
`epc = data[3..12].to_owned()`. -/
structure RfidC where
  rssi : Nat
  pc : Nat
  epc : List Nat
  crc : Nat
deriving DecidableEq

/-- The tag-record parse of connector.rs lines 302-306. Indexing
`data[0]`, `data[1]`, `data[2]`, the slice `data[3..12]`, `data[15]`
and `data[16]` panics on payloads shorter than 17 bytes: `none`. -/
def parseTagC? (data : List Nat) : Option RfidC :=
  if 17 ≤ data.length then
    some { rssi := data.getD 0 0
         , pc := data.getD 1 0 * 16 * 16 + data.getD 2 0
         , epc := (data.drop 3).take 9
         , crc := data.getD 15 0 * 16 * 16 + data.getD 16 0 }
  else none

/-- The per-packet loop of `single_polling_instruction` lines 298-309:
each packet's payload is fetched and parsed in order; the first panic
(short payload) aborts everything. -/
def parseTags : List Packet → Option (List RfidC)
  | [] => some []
  | p :: ps =>
    match p.get_data? with
    | none => none
    | some d =>
      match parseTagC? d with
      | none => none
      | some r => (parseTags ps).map (r :: ·)

/-- `Connector::single_polling_instruction` (lines 288-314): collect an
unbounded burst; `if let Ok(ps)` silently swallows read errors (leaving
`rfids` empty); a single response whose payload byte 0 is `0x15` means
no tag; otherwise each payload is parsed as a tag record. -/
def single_polling_instruction (evs : List ReadEvent) :
    RRes (List RfidC) × List ReadEvent :=
  match read_from_serial none evs with
  | (.ok ps, rest) =>
    let ps := ps.getD []
    match ps with
    | [p] =>
      match p.get_data? with
      | none => (.panicked, rest)
      | some [] => (.panicked, rest)
      | some (b :: _) =>
        if b = 0x15 then (.ok [], rest)
        else
          match parseTags [p] with
          | none => (.panicked, rest)
          | some rs => (.ok rs, rest)
    | _ =>
      match parseTags ps with
      | none => (.panicked, rest)
      | some rs => (.ok rs, rest)
  | (.error _, rest) => (.ok [], rest)
  | (.panicked, rest) => (.panicked, rest)
  | (.hung, rest) => (.hung, rest)

/-! ## Rfid (rfid.rs) -/

/-- rfid.rs's tag record: hex-string `pc`/`epc`/`crc` plus the raw
payload. -/
structure Rfid where
  rssi : Nat
  pc : String
  epc : String
  crc : String
  raw : List Nat
deriving DecidableEq

/-- One uppercase hex digit (`{:02X}` formatting). -/
def hexDigitUpper (n : Nat) : Char :=
  if n < 10 then Char.ofNat (48 + n) else Char.ofNat (55 + n)

/-- `bytes_to_hex_upper` from rfid.rs: each byte as two uppercase hex
digits (bytes are `u8` in the source, hence the `% 256`). -/
def bytes_to_hex_upper (bytes : List Nat) : String :=
  String.mk ((bytes.map (fun b => [hexDigitUpper (b % 256 / 16), hexDigitUpper (b % 16)])).flatten)

/-- `Rfid::from_raw` (rfid.rs lines 14-24): `rssi = raw[0]`,
`pc = hex(raw[1..3])`, `epc = hex(raw[3..15])`, `crc = hex(raw[15..17])`.
Slicing panics on inputs shorter than 17 bytes: `none`. -/
def Rfid.from_raw? (raw : List Nat) : Option Rfid :=
  if 17 ≤ raw.length then
    some { rssi := raw.getD 0 0
         , pc := bytes_to_hex_upper ((raw.drop 1).take 2)
         , epc := bytes_to_hex_upper ((raw.drop 3).take 12)
         , crc := bytes_to_hex_upper ((raw.drop 15).take 2)
         , raw := raw }
  else none

/-- `impl PartialEq for Rfid`: equality is solely on `epc`. -/
def rfidEq (a b : Rfid) : Bool := a.epc == b.epc

/-- A concrete stand-in for the opaque `Hasher` state fed by
`String::hash`; any function of the string models the source, whose
`impl Hash for Rfid` feeds exactly `self.epc` to the hasher. -/
def stringHashModel (s : String) : Nat :=
  s.data.foldl (fun h c => (h * 31 + c.toNat) % (2 ^ 64)) 5381

/-- `impl Hash for Rfid`: the hash reads only `self.epc`. -/
def rfidHash (r : Rfid) : Nat := stringHashModel r.epc

/-- One hash-set insertion under `Rfid`'s `Eq`/`Hash`: a record equal
(by EPC) to one already present is not added. -/
def rfidInsert (s : List Rfid) (r : Rfid) : List Rfid :=
  if s.any (fun x => rfidEq x r) then s else s ++ [r]

/-- Inserting every record of a burst into an (initially empty) hash
set keyed by `Rfid`'s `Eq`/`Hash`. -/
def rfidHashSet (l : List Rfid) : List Rfid := l.foldl rfidInsert []

/-! ## Test-vector frame builder

The device-to-host frame shape used throughout the repository's own
tests (`make_frame` in connector.rs tests): header, a direction byte,
command, big-endian payload length, payload, checksum, end. The
checksum byte is a parameter here; re-assembly never inspects it. -/

def mkFrame (dir op : Nat) (data : List Nat) (cs : Nat) : List Nat :=
  [R200_FRAME_HEADER, dir, op, data.length % 65536 / 256, data.length % 256]
    ++ data ++ [cs, R200_FRAME_END]

/-- Everything of `mkFrame` before its final END byte. -/
def mkFramePre (dir op : Nat) (data : List Nat) (cs : Nat) : List Nat :=
  [R200_FRAME_HEADER, dir, op, data.length % 65536 / 256, data.length % 256]
    ++ data ++ [cs]

/-! ## Concrete byte vectors used as inputs below -/

/-- A device-to-host GetWorkingArea response frame with payload `[0x02]`
(checksum `0x08+0x00+0x01+0x02 = 0x0B`). -/
def frameA : List Nat := mkFrame 0x01 0x08 [0x02] 0x0B

/-- A device-to-host GetWorkingChannel response frame with payload
`[0x07]` (checksum `0xAA+0x00+0x01+0x07 = 0xB2`). -/
def frameB : List Nat := mkFrame 0x01 0xAA [0x07] 0xB2

/-- A 1024-byte read (the size of the source's scratch buffer) that
contains a HEADER byte but no END byte. -/
def c1Noise : List Nat := R200_FRAME_HEADER :: List.replicate 1023 0x00

/-- The 17-byte tag payload of the rfid.rs unit test:
rssi `0xBC`, pc `0x3000`, epc `E28069150000501D63E2784F`, crc `0xB0B7`. -/
def tagPayload17 : List Nat :=
  [0xBC, 0x30, 0x00, 0xE2, 0x80, 0x69, 0x15, 0x00, 0x00, 0x50, 0x1D, 0x63,
   0xE2, 0x78, 0x4F, 0xB0, 0xB7]

/-- A poll-response frame carrying `tagPayload17`. -/
def tagFrame17 : List Nat := mkFrame 0x02 0x22 tagPayload17 0xDF

/-- A 16-byte tag payload (one byte short of the 17 the tag parse
indexes). -/
def tagPayload16 : List Nat :=
  [0x01, 0x02, 0x03, 0x04, 0x05, 0x06, 0x07, 0x08, 0x09, 0x0A, 0x0B, 0x0C,
   0x0D, 0x0E, 0x0F, 0x10]

/-- A poll-response frame carrying the 16-byte payload. -/
def tagFrame16 : List Nat := mkFrame 0x02 0x22 tagPayload16 0xBA

/-- A framed chunk whose declared length (2) does not match its total
length (8 instead of 5+2+2=9): `is_valid` is false, yet its declared
payload slice `[0x42, 0x43]` is in range and non-empty. -/
def badChunk8 : List Nat := [0xAA, 0x01, 0x22, 0x00, 0x02, 0x42, 0x43, 0xDD]

/-- A read whose first END byte sits more than one position before its
first HEADER byte, followed by an ordinary frame. -/
def endBeforeHeader : List Nat := [0xDD, 0x00, 0xAA] ++ frameA

/-- Framing facts `read_from_serial` guarantees for every packet it
appends (the guard of connector.rs lines 140-153): chunk longer than 4,
HEADER first, END last, declared-length payload in range and
non-empty. -/
def goodChunk (raw : List Nat) : Bool :=
  decide (4 < raw.length) && (raw.head? == some R200_FRAME_HEADER)
    && (raw.getLast? == some R200_FRAME_END)
    && (match (Packet.mk raw).get_data? with
        | some d => !d.isEmpty
        | none => false)

/-- Three tag records sharing one EPC with different rssi/pc/crc, and
one with a distinct EPC. -/
def rfidW1 : Rfid := { rssi := 10, pc := "3000", epc := "E28069150000501D63E2784F", crc := "B0B7", raw := [] }

def rfidW2 : Rfid := { rssi := 55, pc := "2FFF", epc := "E28069150000501D63E2784F", crc := "0000", raw := [1] }

def rfidW3 : Rfid := { rssi := 99, pc := "3000", epc := "AAAAAAAAAAAAAAAAAAAAAAAA", crc := "B0B7", raw := [] }

/-! ## Theorems -/

/-- **C10.** There exists an input byte sequence — a read whose
accumulated rolling buffer has its first END byte (0xDD) more than one
position before its first HEADER byte (0xAA), here the bytes
`0xDD, 0x00, 0xAA` followed by frame bytes — on which
`read_from_serial` panics with an out-of-range slice (it slices from
the first HEADER index to the first END index) instead of returning an
error or discarding the noise. -/
theorem C10_endBeforeHeaderPanics :
    read_from_serial none [ReadEvent.ok endBeforeHeader] = (.panicked, []) := by
  rfl

/-- **C4.** On a transport timeout during `read_from_serial`, exactly
one of two outcomes occurs, whatever the loop state: with zero packets
collected the call returns the `Timeout` error, and with at least one
packet collected it returns the collected packets unharmed. -/
theorem C4_timeoutDichotomy (expected : Option Nat) (rest : List ReadEvent)
    (rolling : List Nat) (output : List Packet) :
    readLoop expected (ReadEvent.timedOut :: rest) rolling output =
      (if output.isEmpty then (RRes.error ConnectorError.timeout, rest)
       else (RRes.ok (some output), rest)) := by
  cases output <;> simp [readLoop, step]

/-- **C8 (counterexample).** `get_module_info` does not return
`NoPacketReceived` when its required responses are absent: with three
zero-byte reads (absent responses) it panics, via `.unwrap()` on
`None`. -/
theorem C8_moduleInfoPanicsOnAbsent :
    get_module_info [ReadEvent.ok [], ReadEvent.ok [], ReadEvent.ok []]
      = (.panicked, []) := by
  rfl

/-- **C8 (amended).** On an absent response (a zero-byte read),
`get_working_area`, `get_working_channel`, `get_transmit_power` and
`set_trasmission_power` return the `NoPacketReceived` error value;
`get_module_info` instead panics (see the counterexample), and
`single_polling_instruction` silently returns an empty tag list. -/
theorem C8_absentResponseOutcomes (rest : List ReadEvent) (power : Nat) :
    get_working_area (ReadEvent.ok [] :: rest)
        = (.error .noPacketReceived, rest)
      ∧ get_working_channel (ReadEvent.ok [] :: rest)
        = (.error .noPacketReceived, rest)
      ∧ get_transmit_power (ReadEvent.ok [] :: rest)
        = (.error .noPacketReceived, rest)
      ∧ set_trasmission_power power (ReadEvent.ok [] :: rest)
        = (.error .noPacketReceived, rest)
      ∧ single_polling_instruction (ReadEvent.ok [] :: rest)
        = (.ok [], rest) := by
  exact ⟨rfl, rfl, rfl, rfl, rfl⟩

/-- **C6.** A response payload shorter than 17 bytes handed to the tag
parsing of `single_polling_instruction` does not fail with a typed
error: the fixed-offset indexing (`data[3..12]`, `data[15]`,
`data[16]`) goes out of bounds and the operation panics. -/
theorem C6_shortPayloadPanics :
    single_polling_instruction [ReadEvent.ok tagFrame16, ReadEvent.timedOut]
        = (.panicked, [])
      ∧ tagPayload16.length < 17 := by
  exact ⟨rfl, by decide⟩

/-- **C3.** On the 17-byte tag payload of the repository's own rfid.rs
unit test, `single_polling_instruction` parses rssi from byte 0, pc
from bytes 1-2 and crc from bytes 15-16 as the claim states, but takes
`epc = data[3..12]` — only the 9 bytes 3 through 11 — while rfid.rs's
`Rfid::from_raw` (the repository's tag-record parser, which its unit
test pins to this very payload) takes the 12 bytes 3 through 14. -/
theorem C3_epcSliceMismatch :
    single_polling_instruction [ReadEvent.ok tagFrame17, ReadEvent.timedOut]
        = (.ok [{ rssi := 0xBC, pc := 0x3000
                , epc := (tagPayload17.drop 3).take 9
                , crc := 0xB0B7 }], [])
      ∧ ((tagPayload17.drop 3).take 9).length = 9
      ∧ (Rfid.from_raw? tagPayload17).map Rfid.epc
          = some (bytes_to_hex_upper ((tagPayload17.drop 3).take 12))
      ∧ (Rfid.from_raw? tagPayload17).map Rfid.epc
          = some "E28069150000501D63E2784F" := by
  exact ⟨rfl, by decide, rfl, rfl⟩

/-- **C7 (counterexample).** `read_from_serial` appends a `Packet`
that fails `is_valid()`: the chunk `badChunk8` declares a 2-byte
payload but has total length 8 ≠ 5+2+2, and is accepted anyway. -/
theorem C7_invalidPacketAccepted :
    read_from_serial none [ReadEvent.ok badChunk8, ReadEvent.timedOut]
        = (.ok (some [Packet.mk badChunk8]), [])
      ∧ (Packet.mk badChunk8).is_valid = false := by
  exact ⟨rfl, rfl⟩

/-- **C2 (counterexample).** Fed two complete, well-formed frames in a
single transport read followed by a timeout, `read_from_serial`
returns only the first frame's `Packet`: the second frame is still
sitting in the rolling buffer when the timeout ends the burst. -/
theorem C2_secondFrameLostOnTimeout :
    read_from_serial none [ReadEvent.ok (frameA ++ frameB), ReadEvent.timedOut]
      = (.ok (some [Packet.mk frameA]), []) := by
  rfl

lemma contains_eq_decide_mem (l : List Nat) (a : Nat) :
    l.contains a = decide (a ∈ l) := by
  simp [List.contains, List.elem_eq_mem]

lemma c1Noise_length : c1Noise.length = 1024 := by
  rw [c1Noise, List.length_cons, List.length_replicate]

lemma header_mem_c1Noise : R200_FRAME_HEADER ∈ c1Noise := by
  unfold c1Noise
  exact List.mem_cons_self _ _

lemma end_not_mem_c1Noise : R200_FRAME_END ∉ c1Noise := by
  unfold c1Noise
  intro h
  rcases List.mem_cons.mp h with h | h
  · simp [R200_FRAME_END, R200_FRAME_HEADER] at h
  · rw [List.mem_replicate] at h
    simp [R200_FRAME_END] at h

/-- Reads that contain a HEADER but never an END only ever grow the
rolling buffer: no iteration of the loop reaches the trim. -/
lemma runSteps_noise : ∀ (n : Nat) (rolling : List Nat) (output : List Packet),
    R200_FRAME_END ∉ rolling →
    ∃ r, runSteps none (List.replicate n (ReadEvent.ok c1Noise)) rolling output
        = some (r, output)
      ∧ r.length = rolling.length + n * 1024 ∧ R200_FRAME_END ∉ r := by
  intro n
  induction n with
  | zero =>
    intro rolling output hniE
    exact ⟨rolling, by simp [runSteps], by simp, hniE⟩
  | succ n ih =>
    intro rolling output hniE
    have hstep : step none rolling output (.ok c1Noise)
        = .cont (rolling ++ c1Noise) output := by
      have hne : c1Noise.isEmpty = false := by simp [c1Noise]
      simp [step, hne, stepOk, header_mem_c1Noise, end_not_mem_c1Noise, hniE]
    obtain ⟨r, heq, hlen, hniE2⟩ := ih (rolling ++ c1Noise) output
      (by simp [List.mem_append, hniE, end_not_mem_c1Noise])
    refine ⟨r, ?_, ?_, hniE2⟩
    · simpa [List.replicate_succ, runSteps, hstep] using heq
    · rw [hlen]
      simp [c1Noise_length]
      ring

/-- **C1 (counterexample).** Nine 1024-byte reads each containing a
HEADER byte but no END byte drive the rolling buffer to 9216 bytes at
the observation point after the ninth iteration: the 8192-byte
high-water trim is never applied on the HEADER-without-END path
(connector.rs lines 127-129 `continue` before reaching lines
158-160). -/
theorem C1_bufferGrowsPastHighWater :
    (runSteps none (List.replicate 9 (ReadEvent.ok c1Noise)) [] []).map
        (fun st => st.1.length) = some 9216
      ∧ ¬ (9216 ≤ 8192) := by
  obtain ⟨r, heq, hlen, -⟩ := runSteps_noise 9 [] [] (by simp)
  refine ⟨?_, by decide⟩
  rw [heq]
  simp [hlen]

/-- **C5.** For every `Command` variant, `Frame::new` followed by
`to_bytes` yields exactly
`[0xAA, 0x00, opcode, len_hi, len_lo, params..., checksum, 0xDD]`,
where `(len_hi, len_lo)` is the big-endian parameter-byte count and
the last-but-one byte is the low byte of the sum of all bytes from the
opcode through the last parameter byte inclusive; the command part is
a single opcode byte and the parameter count fits 16 bits. -/
theorem C5_frameLayout (c : Command) :
    Frame.to_bytes (Frame.new c) =
      [0xAA, 0x00] ++ c.to_bytes.1
        ++ [c.to_bytes.2.length / 256, c.to_bytes.2.length % 256]
        ++ c.to_bytes.2
        ++ [(c.to_bytes.1.sum + c.to_bytes.2.length / 256
              + c.to_bytes.2.length % 256 + c.to_bytes.2.sum) % 256, 0xDD]
      ∧ c.to_bytes.1.length = 1 ∧ c.to_bytes.2.length < 65536 := by
  cases c <;>
    simp [Frame.to_bytes, Frame.new, Frame.checksum, Command.to_bytes,
      R200_FRAME_HEADER, R200_FRAME_END] <;>
    ring_nf

lemma drainAndTrim_length_le (rolling : List Nat) (i : Nat) :
    (drainAndTrim rolling i).length ≤ 8192 := by
  simp only [drainAndTrim]
  split
  · rw [List.length_drop]
    omega
  · omega

lemma drainAndTrim_eq_4096 (rolling : List Nat) (i : Nat)
    (h : 8192 < (rolling.drop (i + 1)).length) :
    (drainAndTrim rolling i).length = 4096 := by
  simp only [drainAndTrim]
  rw [if_pos h, List.length_drop]
  omega

/-- **C1 (amended).** The high-water trim runs only on loop iterations
that see both a HEADER and an END byte in the grown rolling buffer: on
every such iteration that continues the loop, the resulting buffer is
at most 8192 bytes long, and exactly its last 4096 bytes whenever the
post-drain buffer exceeded 8192. (Iterations whose buffer holds a
HEADER but no END never trim, and the buffer can grow without bound —
see the counterexample.) -/
theorem C1_trimBoundedWhenEndPresent (expected : Option Nat)
    (rolling : List Nat) (output : List Packet) (bytes r' : List Nat)
    (o' : List Packet)
    (hc : step expected rolling output (.ok bytes) = .cont r' o')
    (hH : R200_FRAME_HEADER ∈ rolling ++ bytes)
    (hE : R200_FRAME_END ∈ rolling ++ bytes) :
    r'.length ≤ 8192 ∧
      (8192 < ((rolling ++ bytes).drop
          (firstIdx (rolling ++ bytes) R200_FRAME_END + 1)).length →
        r'.length = 4096) := by
  by_cases hne : bytes.isEmpty
  · simp [step, hne] at hc
  · simp only [step, hne, Bool.false_eq_true, if_false] at hc
    unfold stepOk at hc
    simp only [contains_eq_decide_mem] at hc
    rw [decide_eq_true hH, decide_eq_true hE] at hc
    simp only [Bool.not_true, Bool.false_eq_true, if_false] at hc
    split at hc
    · exact absurd hc (by simp)
    · split at hc
      · split at hc
        · exact absurd hc (by simp)
        · split at hc
          · cases hc
            exact ⟨drainAndTrim_length_le _ _, fun h =>
              drainAndTrim_eq_4096 _ _ h⟩
          · split at hc
            · exact absurd hc (by simp)
            · cases hc
              exact ⟨drainAndTrim_length_le _ _, fun h =>
                drainAndTrim_eq_4096 _ _ h⟩
      · cases hc
        exact ⟨drainAndTrim_length_le _ _, fun h =>
          drainAndTrim_eq_4096 _ _ h⟩

/-- Witness for C1 (amended): one concrete iteration that sees both a
HEADER and an END (the single frame `frameA`) lands on an empty — hence
bounded — rolling buffer. -/
theorem C1_trimBoundedWitness :
    ([] : List Nat).length ≤ 8192 ∧
      (8192 < ((([] : List Nat) ++ frameA).drop
          (firstIdx (([] : List Nat) ++ frameA) R200_FRAME_END + 1)).length →
        ([] : List Nat).length = 4096) :=
  C1_trimBoundedWhenEndPresent none [] [] frameA [] [Packet.mk frameA] rfl
    (by decide) (by decide)

lemma findIdx_append_of_forall (p : Nat → Bool) (l1 l2 : List Nat)
    (h : ∀ x ∈ l1, p x = false) :
    (l1 ++ l2).findIdx p = l1.length + l2.findIdx p := by
  induction l1 with
  | nil => simp
  | cons a t ih =>
    have ha : p a = false := h a (by simp)
    simp only [List.cons_append, List.findIdx_cons, ha, cond_false,
      List.length_cons]
    rw [ih (fun x hx => h x (by simp [hx]))]
    omega

lemma mkFrame_eq_pre (dir op cs : Nat) (data : List Nat) :
    mkFrame dir op data cs = mkFramePre dir op data cs ++ [R200_FRAME_END] := by
  simp [mkFrame, mkFramePre]

lemma mkFrame_length (dir op cs : Nat) (data : List Nat) :
    (mkFrame dir op data cs).length = data.length + 7 := by
  simp [mkFrame]

lemma mkFramePre_length (dir op cs : Nat) (data : List Nat) :
    (mkFramePre dir op data cs).length = data.length + 6 := by
  simp [mkFramePre]

lemma mkFrame_data_len (dir op cs : Nat) (data : List Nat)
    (hlen : data.length < 65536) :
    (Packet.mk (mkFrame dir op data cs)).data_len = data.length := by
  simp [Packet.data_len, mkFrame]
  omega

lemma mkFrame_get_data (dir op cs : Nat) (data : List Nat)
    (hlen : data.length < 65536) :
    (Packet.mk (mkFrame dir op data cs)).get_data? = some data := by
  rw [Packet.get_data?]
  rw [if_pos (by rw [mkFrame_data_len dir op cs data hlen]; simp [mkFrame_length]; omega)]
  rw [mkFrame_data_len dir op cs data hlen]
  simp [mkFrame, List.take_left]

/-- Processing one well-formed frame at the head of the rolling
buffer: the frame is decoded and appended, and exactly the bytes after
its END byte remain buffered for the next iteration. -/
lemma stepOk_frame (dir op cs : Nat) (data tail : List Nat)
    (output : List Packet)
    (hpre : R200_FRAME_END ∉ mkFramePre dir op data cs)
    (hd : data ≠ []) (hlen : data.length < 65536)
    (htail : tail.length ≤ 8192)
    (hout : output.length + 1 < 100000) :
    stepOk none (mkFrame dir op data cs ++ tail) output
      = .cont tail (output ++ [Packet.mk (mkFrame dir op data cs)]) := by
  have hdlen : 1 ≤ data.length := by
    cases data with
    | nil => exact absurd rfl hd
    | cons a t => simp
  have hH : R200_FRAME_HEADER ∈ mkFrame dir op data cs ++ tail := by
    simp [mkFrame]
  have hE : R200_FRAME_END ∈ mkFrame dir op data cs ++ tail := by
    rw [mkFrame_eq_pre, List.append_assoc]
    simp
  have hfirst : firstIdx (mkFrame dir op data cs ++ tail) R200_FRAME_HEADER
      = 0 := by
    simp [firstIdx, mkFrame, List.findIdx_cons]
  have hlast : firstIdx (mkFrame dir op data cs ++ tail) R200_FRAME_END
      = data.length + 6 := by
    rw [mkFrame_eq_pre, List.append_assoc, firstIdx,
      findIdx_append_of_forall _ _ _
        (fun x hx => by
          simp only [beq_eq_false_iff_ne, ne_eq]
          exact fun hxe => hpre (hxe ▸ hx))]
    simp [List.findIdx_cons, mkFramePre_length]
  have hchunk :
      ((mkFrame dir op data cs ++ tail).drop 0).take (data.length + 6 + 1 - 0)
        = mkFrame dir op data cs := by
    rw [List.drop_zero]
    exact List.take_left' (by rw [mkFrame_length]; omega)
  have hhead : (mkFrame dir op data cs).head? = some R200_FRAME_HEADER := by
    simp [mkFrame]
  have hgetLast : (mkFrame dir op data cs).getLast? = some R200_FRAME_END := by
    rw [mkFrame_eq_pre]
    exact List.getLast?_concat _
  have hde : data.isEmpty = false := by
    cases data with
    | nil => exact absurd rfl hd
    | cons a t => rfl
  have hdt : drainAndTrim (mkFrame dir op data cs ++ tail) (data.length + 6)
      = tail := by
    simp only [drainAndTrim]
    rw [show data.length + 6 + 1 = (mkFrame dir op data cs).length by
      rw [mkFrame_length]]
    rw [List.drop_left]
    rw [if_neg (by omega)]
  simp only [stepOk, contains_eq_decide_mem, decide_eq_true hH,
    decide_eq_true hE, Bool.not_true, Bool.false_eq_true, if_false,
    hfirst, hlast]
  rw [if_neg (by omega)]
  rw [hchunk]
  rw [if_pos ⟨by rw [mkFrame_length]; omega, hhead, hgetLast⟩]
  rw [mkFrame_get_data dir op cs data hlen]
  simp only [hde, Bool.false_eq_true, if_false]
  rw [if_neg (by simp [Option.getD]; omega)]
  rw [hdt]

lemma readLoop_cons (expected : Option Nat) (e : ReadEvent)
    (rest : List ReadEvent) (rolling : List Nat) (output : List Packet) :
    readLoop expected (e :: rest) rolling output
      = match step expected rolling output e with
        | .cont r o => readLoop expected rest r o
        | .done res => (res, rest) := rfl

/-- **C2 (amended).** Fed two complete, well-formed frames in a single
transport read, `read_from_serial` decodes only the first frame in
that iteration; the second frame, left in the rolling buffer, is
decoded on the next loop iteration — which runs only when a further
read delivers at least one more byte — after which both Packets are
returned in arrival order. (When the read following the double frame
times out instead, only the first Packet is returned — see the
counterexample.) -/
theorem C2_bothFramesAfterExtraRead (dir1 op1 cs1 dir2 op2 cs2 x : Nat)
    (d1 d2 : List Nat)
    (h1 : R200_FRAME_END ∉ mkFramePre dir1 op1 d1 cs1) (hd1 : d1 ≠ [])
    (hl1 : d1.length < 65536)
    (h2 : R200_FRAME_END ∉ mkFramePre dir2 op2 d2 cs2) (hd2 : d2 ≠ [])
    (hl2 : d2.length < 65536) (hsmall : d2.length ≤ 8185) :
    read_from_serial none
        [ReadEvent.ok (mkFrame dir1 op1 d1 cs1 ++ mkFrame dir2 op2 d2 cs2),
         ReadEvent.ok [x], ReadEvent.timedOut]
      = (.ok (some [Packet.mk (mkFrame dir1 op1 d1 cs1),
                    Packet.mk (mkFrame dir2 op2 d2 cs2)]), []) := by
  have hne1 : (mkFrame dir1 op1 d1 cs1 ++ mkFrame dir2 op2 d2 cs2).isEmpty
      = false := by
    simp [mkFrame]
  have hne2 : ([x] : List Nat).isEmpty = false := by simp
  have hst1 : step none [] []
      (.ok (mkFrame dir1 op1 d1 cs1 ++ mkFrame dir2 op2 d2 cs2))
      = .cont (mkFrame dir2 op2 d2 cs2) [Packet.mk (mkFrame dir1 op1 d1 cs1)] := by
    simp only [step, hne1, Bool.false_eq_true, if_false, List.nil_append]
    simpa using stepOk_frame dir1 op1 cs1 d1 (mkFrame dir2 op2 d2 cs2) []
      h1 hd1 hl1 (by rw [mkFrame_length]; omega) (by simp)
  have hst2 : step none (mkFrame dir2 op2 d2 cs2)
      [Packet.mk (mkFrame dir1 op1 d1 cs1)] (.ok [x])
      = .cont [x] [Packet.mk (mkFrame dir1 op1 d1 cs1),
                   Packet.mk (mkFrame dir2 op2 d2 cs2)] := by
    simp only [step, hne2, Bool.false_eq_true, if_false]
    simpa using stepOk_frame dir2 op2 cs2 d2 [x]
      [Packet.mk (mkFrame dir1 op1 d1 cs1)] h2 hd2 hl2 (by simp) (by simp)
  have hst3 : step none [x]
      [Packet.mk (mkFrame dir1 op1 d1 cs1), Packet.mk (mkFrame dir2 op2 d2 cs2)]
      .timedOut
      = .done (.ok (some [Packet.mk (mkFrame dir1 op1 d1 cs1),
                          Packet.mk (mkFrame dir2 op2 d2 cs2)])) := by
    simp [step]
  simp only [read_from_serial, readLoop_cons, hst1, hst2, hst3]

/-- Witness for C2 (amended): the concrete frames `frameA` and
`frameB` in one read, followed by one further 1-byte read, yield both
Packets in order. -/
theorem C2_bothFramesWitness :
    read_from_serial none
        [ReadEvent.ok (frameA ++ frameB), ReadEvent.ok [0x00],
         ReadEvent.timedOut]
      = (.ok (some [Packet.mk frameA, Packet.mk frameB]), []) := by
  have h := C2_bothFramesAfterExtraRead 0x01 0x08 0x0B 0x01 0xAA 0xB2 0x00
    [0x02] [0x07] (by decide) (by decide) (by decide) (by decide) (by decide)
    (by decide) (by decide)
  exact h

lemma stepOk_cont_good (expected : Option Nat) (rolling r' : List Nat)
    (output o' : List Packet)
    (hc : stepOk expected rolling output = .cont r' o') :
    ∀ p ∈ o', p ∈ output ∨ goodChunk p.raw_data = true := by
  simp only [stepOk] at hc
  split at hc
  · cases hc
    exact fun p hp => Or.inl hp
  · split at hc
    · cases hc
      exact fun p hp => Or.inl hp
    · split at hc
      · exact absurd hc (by simp)
      · split at hc
        · rename_i hguard
          split at hc
          · exact absurd hc (by simp)
          · rename_i d hgd
            split at hc
            · cases hc
              exact fun p hp => Or.inl hp
            · rename_i hdne
              split at hc
              · exact absurd hc (by simp)
              · cases hc
                intro p hp
                rcases List.mem_append.mp hp with h | h
                · exact Or.inl h
                · refine Or.inr ?_
                  rcases List.mem_singleton.mp h with rfl
                  have hdf : d.isEmpty = false := by
                    revert hdne
                    cases d.isEmpty <;> simp
                  simp only [goodChunk, hgd, Bool.and_eq_true,
                    decide_eq_true_eq, beq_iff_eq, Bool.not_eq_true']
                  exact ⟨⟨⟨hguard.1, hguard.2.1⟩, hguard.2.2⟩, hdf⟩
        · cases hc
          exact fun p hp => Or.inl hp

lemma stepOk_done_good (expected : Option Nat) (rolling : List Nat)
    (output ps : List Packet)
    (hc : stepOk expected rolling output = .done (.ok (some ps))) :
    ∀ p ∈ ps, p ∈ output ∨ goodChunk p.raw_data = true := by
  simp only [stepOk] at hc
  split at hc
  · exact absurd hc (by simp)
  · split at hc
    · exact absurd hc (by simp)
    · split at hc
      · exact absurd hc (by simp)
      · split at hc
        · rename_i hguard
          split at hc
          · exact absurd hc (by simp)
          · rename_i d hgd
            split at hc
            · exact absurd hc (by simp)
            · rename_i hdne
              split at hc
              · cases hc
                intro p hp
                rcases List.mem_append.mp hp with h | h
                · exact Or.inl h
                · refine Or.inr ?_
                  rcases List.mem_singleton.mp h with rfl
                  have hdf : d.isEmpty = false := by
                    revert hdne
                    cases d.isEmpty <;> simp
                  simp only [goodChunk, hgd, Bool.and_eq_true,
                    decide_eq_true_eq, beq_iff_eq, Bool.not_eq_true']
                  exact ⟨⟨⟨hguard.1, hguard.2.1⟩, hguard.2.2⟩, hdf⟩
              · exact absurd hc (by simp)
        · exact absurd hc (by simp)

lemma step_cont_good (expected : Option Nat) (rolling r' : List Nat)
    (output o' : List Packet) (e : ReadEvent)
    (hc : step expected rolling output e = .cont r' o') :
    ∀ p ∈ o', p ∈ output ∨ goodChunk p.raw_data = true := by
  cases e with
  | ok bytes =>
    by_cases hb : bytes.isEmpty
    · simp [step, hb] at hc
    · simp only [step, hb, Bool.false_eq_true, if_false] at hc
      exact stepOk_cont_good expected (rolling ++ bytes) r' output o' hc
  | timedOut =>
    by_cases ho : output.isEmpty <;> simp [step, ho] at hc
  | ioError => simp [step] at hc

lemma step_done_good (expected : Option Nat) (rolling : List Nat)
    (output ps : List Packet) (e : ReadEvent)
    (hc : step expected rolling output e = .done (.ok (some ps))) :
    ∀ p ∈ ps, p ∈ output ∨ goodChunk p.raw_data = true := by
  cases e with
  | ok bytes =>
    by_cases hb : bytes.isEmpty
    · simp [step, hb] at hc
    · simp only [step, hb, Bool.false_eq_true, if_false] at hc
      exact stepOk_done_good expected (rolling ++ bytes) output ps hc
  | timedOut =>
    by_cases ho : output.isEmpty
    · simp [step, ho] at hc
    · simp only [step, ho, Bool.false_eq_true, if_false,
        StepRes.done.injEq, RRes.ok.injEq, Option.some.injEq] at hc
      subst hc
      exact fun p hp => Or.inl hp
  | ioError => simp [step] at hc

lemma readLoop_good (evs : List ReadEvent) : ∀ (expected : Option Nat)
    (rolling : List Nat) (output ps : List Packet) (rest : List ReadEvent),
    (∀ p ∈ output, goodChunk p.raw_data = true) →
    readLoop expected evs rolling output = (.ok (some ps), rest) →
    ∀ p ∈ ps, goodChunk p.raw_data = true := by
  induction evs with
  | nil =>
    intro expected rolling output ps rest hgood hrun
    simp [readLoop] at hrun
  | cons e tl ih =>
    intro expected rolling output ps rest hgood hrun
    rw [readLoop_cons] at hrun
    cases hse : step expected rolling output e with
    | cont r o =>
      rw [hse] at hrun
      refine ih expected r o ps rest ?_ hrun
      intro p hp
      rcases step_cont_good expected rolling r output o e hse p hp with h | h
      · exact hgood p h
      · exact h
    | done res =>
      rw [hse] at hrun
      simp only [Prod.mk.injEq] at hrun
      obtain ⟨hres, -⟩ := hrun
      subst hres
      intro p hp
      rcases step_done_good expected rolling output ps e hse p hp with h | h
      · exact hgood p h
      · exact h

/-- **C7 (amended).** Every `Packet` that `read_from_serial` appends to
its output satisfies the framing guard actually checked by the code —
chunk longer than 4 bytes, HEADER first, END last, declared-length
payload in range and non-empty (`goodChunk`) — but `is_valid()` is
never consulted, and an accepted packet can fail it (see the
counterexample). -/
theorem C7_acceptedPacketsFraming (expected : Option Nat)
    (evs rest : List ReadEvent) (ps : List Packet)
    (h : read_from_serial expected evs = (.ok (some ps), rest)) :
    ∀ p ∈ ps, goodChunk p.raw_data = true := by
  exact readLoop_good evs expected [] [] ps rest (by simp) h

/-- Witness for C7 (amended): the packet recovered from a single
`frameA` read satisfies the framing guard. -/
theorem C7_acceptedPacketsWitness :
    goodChunk (Packet.mk frameA).raw_data = true :=
  C7_acceptedPacketsFraming none [ReadEvent.ok frameA, ReadEvent.timedOut] []
    [Packet.mk frameA] rfl (Packet.mk frameA) (by simp)

lemma rfidInsert_mem_epc (s : List Rfid) (r : Rfid) (e : String) :
    e ∈ (rfidInsert s r).map Rfid.epc ↔ e ∈ s.map Rfid.epc ∨ e = r.epc := by
  unfold rfidInsert
  split
  · rename_i hany
    obtain ⟨x, hx, hxe⟩ := List.any_eq_true.mp hany
    have hxr : x.epc = r.epc := by simpa [rfidEq] using hxe
    constructor
    · exact Or.inl
    · rintro (h | rfl)
      · exact h
      · rw [← hxr]
        exact List.mem_map_of_mem Rfid.epc hx
  · simp [List.map_append, List.mem_append, or_comm]

lemma rfidInsert_countP (s : List Rfid) (r : Rfid) (e : String)
    (h : s.countP (fun x => x.epc == e) = if e ∈ s.map Rfid.epc then 1 else 0) :
    (rfidInsert s r).countP (fun x => x.epc == e)
      = if e ∈ s.map Rfid.epc ∨ e = r.epc then 1 else 0 := by
  unfold rfidInsert
  split
  · rename_i hany
    rw [h]
    obtain ⟨x, hx, hxe⟩ := List.any_eq_true.mp hany
    have hxr : x.epc = r.epc := by simpa [rfidEq] using hxe
    by_cases he : e ∈ s.map Rfid.epc
    · simp [he]
    · have hne : e ≠ r.epc := by
        intro heq
        exact he (by rw [heq, ← hxr]; exact List.mem_map_of_mem Rfid.epc hx)
      simp [he, hne]
  · rename_i hany
    rw [List.countP_append, h]
    have hr : r.epc ∉ s.map Rfid.epc := by
      intro hmem
      obtain ⟨x, hx, hxe⟩ := List.mem_map.mp hmem
      have hxt : rfidEq x r = true := by simp [rfidEq, hxe]
      exact absurd (List.any_eq_true.mpr ⟨x, hx, hxt⟩) hany
    by_cases he : e = r.epc
    · subst he
      simp [hr, List.countP_cons]
    · by_cases hm : e ∈ s.map Rfid.epc
      · simp [hm, he, List.countP_cons, Ne.symm he]
      · simp [hm, he, List.countP_cons, Ne.symm he]

lemma rfidFold_countP (l : List Rfid) : ∀ (s : List Rfid) (e : String),
    s.countP (fun x => x.epc == e) = (if e ∈ s.map Rfid.epc then 1 else 0) →
    (l.foldl rfidInsert s).countP (fun x => x.epc == e)
      = if e ∈ s.map Rfid.epc ∨ e ∈ l.map Rfid.epc then 1 else 0 := by
  induction l with
  | nil =>
    intro s e h
    simpa using h
  | cons r t ih =>
    intro s e h
    have h2 := rfidInsert_countP s r e h
    have hinv : (rfidInsert s r).countP (fun x => x.epc == e)
        = if e ∈ (rfidInsert s r).map Rfid.epc then 1 else 0 := by
      rw [h2]
      exact if_congr (rfidInsert_mem_epc s r e).symm rfl rfl
    have h3 := ih (rfidInsert s r) e hinv
    simp only [List.foldl_cons]
    rw [h3]
    refine if_congr ?_ rfl rfl
    rw [rfidInsert_mem_epc]
    simp only [List.map_cons, List.mem_cons]
    tauto

/-- **C9.** `Rfid` equality holds iff the EPC fields are equal; equal
EPCs give equal hashes (the `Hash` impl reads only `epc`); and
inserting the records of a burst into a hash set keyed by this
`Eq`/`Hash` yields exactly one entry per distinct EPC — differences in
rssi, pc or crc never create extra entries. -/
theorem C9_epcIdentity :
    (∀ a b : Rfid, rfidEq a b = true ↔ a.epc = b.epc)
      ∧ (∀ a b : Rfid, a.epc = b.epc → rfidHash a = rfidHash b)
      ∧ ∀ (l : List Rfid) (e : String),
          (rfidHashSet l).countP (fun x => x.epc == e)
            = if e ∈ l.map Rfid.epc then 1 else 0 := by
  refine ⟨?_, ?_, ?_⟩
  · intro a b
    simp [rfidEq]
  · intro a b h
    simp [rfidHash, h]
  · intro l e
    have h := rfidFold_countP l [] e (by simp)
    simpa using h

/-- Witness for C9: two concrete records differing in rssi/pc/crc but
sharing an EPC hash identically, and a three-record burst with two
distinct EPCs deduplicates to one entry for the shared EPC. -/
theorem C9_epcIdentityWitness :
    rfidHash rfidW1 = rfidHash rfidW2
      ∧ (rfidHashSet [rfidW1, rfidW2, rfidW3]).countP
          (fun x => x.epc == rfidW1.epc) = 1 := by
  constructor
  · exact C9_epcIdentity.2.1 rfidW1 rfidW2 rfl
  · rw [C9_epcIdentity.2.2 [rfidW1, rfidW2, rfidW3] rfidW1.epc]
    simp [rfidW1]
